import Mathlib

/-!
# Verification of the worker-offload subsystem of fast-jwt

Shallow embedding of `src/workers.js`: the shared-buffer framing protocol
(`writeBuffer` / `readBuffer`), the cross-thread error serialization
(`handleWorker`'s reply framing and `deserializeWorkerError`), the pool
lifecycle (`startWorkers` / `stopWorkers`), the availability queue
(`getAvailableWorker`) and the caller dispatch
(`createSignatureWithWorker` / `verifySignatureWithWorker`).

Machine conventions used throughout:
* byte sequences are `List Nat` (one `Nat` per byte);
* a JavaScript value handed to the framing layer is a `JsField`: a string
  (via its byte encoding), a `Buffer`, or any other value (`other` covers
  `undefined`, `null`, numbers, objects — everything that is neither a
  string nor a `Buffer`);
* the availability-queue array `availableWorkers` is a `List (Option Nat)`
  where `none` models a hole (reading it yields `undefined`);
* `null` and `undefined` passed to a worker-index callback are both
  modelled as `none : Option Nat` — the source only ever tests them with
  the falsy check `!workerIndex`, under which they are indistinguishable.
-/

abbrev Bytes := List Nat

/-- The byte encoding of a string (`Buffer.from(s)`), one entry per code
point; the encoding is injective, which is all the framing layer uses. -/
def strBytes (s : String) : Bytes :=
  s.data.map Char.toNat

/-- Decoding used by the caller side (`buf.toString('utf-8')`). -/
def bytesToStr (b : Bytes) : String :=
  String.mk (b.map Char.ofNat)

/-- A JavaScript value presented to `writeBuffer`: a string, a `Buffer`,
or any other value (not serializable by the protocol). -/
inductive JsField
  | str (bytes : Bytes)
  | buf (bytes : Bytes)
  | other
deriving DecidableEq

/-- The bytes a field contributes to the packed region, `none` when the
field is neither a string nor a `Buffer`. -/
def JsField.serialized : JsField → Option Bytes
  | .str b => some b
  | .buf b => some b
  | .other => none

/-- Number of bytes a field occupies in the packed region. -/
def JsField.serializedLen (e : JsField) : Nat :=
  (e.serialized.getD []).length

/-- Total packed size of a field list. -/
def totalSize (elements : List JsField) : Nat :=
  (elements.map JsField.serializedLen).sum

/-- `Buffer.prototype.copy`: overwrite `buffer` starting at `offset` with
`src` (callers ensure `offset + src.length ≤ buffer.length`). -/
def bytesCopy (buffer : Bytes) (offset : Nat) (src : Bytes) : Bytes :=
  buffer.take offset ++ (src ++ buffer.drop (offset + src.length))

/-- `writeBuffer` (src/workers.js:20-35), with the running `offset` made
explicit.  Returns the mutated buffer and the sizes array: non-serializable
fields record size `0`; serializable fields are copied at the running
offset, recording the number of bytes actually copied
(`Buffer.copy` truncates at the end of the target buffer). -/
def writeBufferAux (buffer : Bytes) (offset : Nat) : List JsField → Bytes × List Nat
  | [] => (buffer, [])
  | e :: rest =>
    match e.serialized with
    | none =>
      let r := writeBufferAux buffer offset rest
      (r.1, 0 :: r.2)
    | some bs =>
      let size := min bs.length (buffer.length - offset)
      let r := writeBufferAux (bytesCopy buffer offset (bs.take size)) (offset + size) rest
      (r.1, size :: r.2)

/-- `writeBuffer(buffer, sizesArray, elements)`: pack `elements` into
`buffer` from offset 0, returning the buffer and the sizes array. -/
def writeBuffer (buffer : Bytes) (elements : List JsField) : Bytes × List Nat :=
  writeBufferAux buffer 0 elements

/-- `readBuffer` (src/workers.js:37-50), with the running `start` made
explicit: for each of the `count` fields, advance by the recorded size and
yield `undefined` (`none`) for a zero-size field, the slice of the buffer
otherwise. -/
def readBufferAux (buffer : Bytes) (start : Nat) (sizes : List Nat) : Nat → List (Option Bytes)
  | 0 => []
  | Nat.succ n =>
    let sz := sizes.headD 0
    (if sz = 0 then none else some ((buffer.drop start).take sz)) ::
      readBufferAux buffer (start + sz) sizes.tail n

/-- `readBuffer(buffer, sizesArray, elementsCount)`. -/
def readBuffer (buffer : Bytes) (sizes : List Nat) (count : Nat) : List (Option Bytes) :=
  readBufferAux buffer 0 sizes count

/-- What a framed field reads back as: `none` for non-serializable and for
zero-length fields, the exact original bytes otherwise. -/
def JsField.readBack (e : JsField) : Option Bytes :=
  match e.serialized with
  | none => none
  | some bs => if bs.length = 0 then none else some bs

theorem bytesCopy_nil (buffer : Bytes) (offset : Nat) :
    bytesCopy buffer offset [] = buffer := by
  simp [bytesCopy]

theorem bytesCopy_length (buffer : Bytes) (offset : Nat) (src : Bytes)
    (h : offset + src.length ≤ buffer.length) :
    (bytesCopy buffer offset src).length = buffer.length := by
  simp only [bytesCopy, List.length_append, List.length_take, List.length_drop]
  omega

theorem bytesCopy_take (buffer : Bytes) (offset : Nat) (src : Bytes)
    (h : offset ≤ buffer.length) :
    (bytesCopy buffer offset src).take offset = buffer.take offset := by
  have hA : (buffer.take offset).length = offset := by
    simp only [List.length_take]
    omega
  exact List.take_left' hA

theorem bytesCopy_slice (buffer : Bytes) (offset : Nat) (src : Bytes)
    (h : offset + src.length ≤ buffer.length) :
    ((bytesCopy buffer offset src).drop offset).take src.length = src := by
  have hA : (buffer.take offset).length = offset := by
    simp only [List.length_take]
    omega
  simp only [bytesCopy]
  rw [List.drop_left' hA, List.take_left]

theorem take_eq_of_take_eq {b c : Bytes} {k o : Nat}
    (h : b.take k = c.take k) (ho : o ≤ k) : b.take o = c.take o := by
  have h2 : (b.take k).take o = (c.take k).take o := by rw [h]
  simpa [List.take_take, min_eq_left ho] using h2

theorem slice_eq_of_take_eq {b c : Bytes} {k o l : Nat}
    (h : b.take k = c.take k) (hkl : o + l ≤ k) :
    (b.drop o).take l = (c.drop o).take l := by
  have h1 : ∀ x : Bytes, ((x.take k).drop o).take l = (x.drop o).take l := by
    intro x
    rw [List.drop_take, List.take_take, min_eq_left (by omega)]
  rw [← h1 b, ← h1 c, h]

theorem totalSize_cons (e : JsField) (rest : List JsField) :
    totalSize (e :: rest) = e.serializedLen + totalSize rest := by
  simp [totalSize]

/-- The buffer keeps its length across `writeBuffer` when the fields fit. -/
theorem writeBufferAux_length :
    ∀ (els : List JsField) (buffer : Bytes) (offset : Nat),
      offset + totalSize els ≤ buffer.length →
      (writeBufferAux buffer offset els).1.length = buffer.length := by
  intro els
  induction els with
  | nil => intro buffer offset _; rfl
  | cons e rest ih =>
    intro buffer offset hfit
    rw [totalSize_cons] at hfit
    match he : e.serialized with
    | none =>
      have hlen : e.serializedLen = 0 := by simp [JsField.serializedLen, he]
      simp only [writeBufferAux, he]
      exact ih buffer offset (by omega)
    | some bs =>
      have hlen : e.serializedLen = bs.length := by simp [JsField.serializedLen, he]
      have hsz : min bs.length (buffer.length - offset) = bs.length := by omega
      simp only [writeBufferAux, he, hsz, List.take_length]
      rw [ih (bytesCopy buffer offset bs) (offset + bs.length)
        (by rw [bytesCopy_length buffer offset bs (by omega)]; omega)]
      exact bytesCopy_length buffer offset bs (by omega)

/-- `writeBuffer` never touches the buffer below the starting offset. -/
theorem writeBufferAux_take :
    ∀ (els : List JsField) (buffer : Bytes) (offset : Nat),
      offset + totalSize els ≤ buffer.length →
      (writeBufferAux buffer offset els).1.take offset = buffer.take offset := by
  intro els
  induction els with
  | nil => intro buffer offset _; rfl
  | cons e rest ih =>
    intro buffer offset hfit
    rw [totalSize_cons] at hfit
    match he : e.serialized with
    | none =>
      have hlen : e.serializedLen = 0 := by simp [JsField.serializedLen, he]
      simp only [writeBufferAux, he]
      exact ih buffer offset (by omega)
    | some bs =>
      have hlen : e.serializedLen = bs.length := by simp [JsField.serializedLen, he]
      have hsz : min bs.length (buffer.length - offset) = bs.length := by omega
      simp only [writeBufferAux, he, hsz, List.take_length]
      have hlen2 : (bytesCopy buffer offset bs).length = buffer.length :=
        bytesCopy_length buffer offset bs (by omega)
      have h1 := ih (bytesCopy buffer offset bs) (offset + bs.length) (by omega)
      have h2 := take_eq_of_take_eq h1 (Nat.le_add_right offset bs.length)
      rw [h2]
      exact bytesCopy_take buffer offset bs (by omega)

/-- The sizes array records exactly each field's serialized byte length
(`0` for non-serializable fields) when the fields fit. -/
theorem writeBufferAux_sizes :
    ∀ (els : List JsField) (buffer : Bytes) (offset : Nat),
      offset + totalSize els ≤ buffer.length →
      (writeBufferAux buffer offset els).2 = els.map JsField.serializedLen := by
  intro els
  induction els with
  | nil => intro buffer offset _; rfl
  | cons e rest ih =>
    intro buffer offset hfit
    rw [totalSize_cons] at hfit
    match he : e.serialized with
    | none =>
      have hlen : e.serializedLen = 0 := by simp [JsField.serializedLen, he]
      simp only [writeBufferAux, he, List.map_cons, hlen]
      rw [ih buffer offset (by omega)]
    | some bs =>
      have hlen : e.serializedLen = bs.length := by simp [JsField.serializedLen, he]
      have hsz : min bs.length (buffer.length - offset) = bs.length := by omega
      simp only [writeBufferAux, he, hsz, List.take_length, List.map_cons, hlen]
      rw [ih (bytesCopy buffer offset bs) (offset + bs.length)
        (by rw [bytesCopy_length buffer offset bs (by omega)]; omega)]

/-- Unframing with the recorded sizes recovers, for each position, the
original bytes of a framed non-empty field and `undefined` for every
zero-size position. -/
theorem writeBufferAux_read :
    ∀ (els : List JsField) (buffer : Bytes) (offset : Nat),
      offset + totalSize els ≤ buffer.length →
      readBufferAux (writeBufferAux buffer offset els).1 offset
          (els.map JsField.serializedLen) els.length
        = els.map JsField.readBack := by
  intro els
  induction els with
  | nil => intro buffer offset _; rfl
  | cons e rest ih =>
    intro buffer offset hfit
    rw [totalSize_cons] at hfit
    match he : e.serialized with
    | none =>
      have hlen : e.serializedLen = 0 := by simp [JsField.serializedLen, he]
      have hrb : e.readBack = none := by simp [JsField.readBack, he]
      simp only [writeBufferAux, he, List.map_cons, List.length_cons, hlen,
        readBufferAux, List.headD_cons, List.tail_cons, hrb, if_pos rfl, Nat.add_zero]
      exact congrArg₂ _ rfl (ih buffer offset (by omega))
    | some bs =>
      have hlen : e.serializedLen = bs.length := by simp [JsField.serializedLen, he]
      have hsz : min bs.length (buffer.length - offset) = bs.length := by omega
      have hcopylen : (bytesCopy buffer offset bs).length = buffer.length :=
        bytesCopy_length buffer offset bs (by omega)
      have hfit' : offset + bs.length + totalSize rest ≤ (bytesCopy buffer offset bs).length := by
        omega
      simp only [writeBufferAux, he, hsz, List.take_length, List.map_cons,
        List.length_cons, hlen, readBufferAux, List.headD_cons, List.tail_cons]
      by_cases hbs : bs.length = 0
      · have hnil : bs = [] := List.length_eq_zero.mp hbs
        subst hnil
        have hrb : e.readBack = none := by simp [JsField.readBack, he]
        simp only [List.length_nil, if_pos rfl, bytesCopy_nil, Nat.add_zero, hrb]
        exact congrArg₂ _ rfl (ih buffer offset (by omega))
      · have hrb : e.readBack = some bs := by
          simp [JsField.readBack, he, hbs]
        rw [if_neg hbs, hrb]
        have htake := writeBufferAux_take rest (bytesCopy buffer offset bs)
          (offset + bs.length) hfit'
        have hslice : ((writeBufferAux (bytesCopy buffer offset bs)
            (offset + bs.length) rest).1.drop offset).take bs.length = bs := by
          rw [slice_eq_of_take_eq htake (Nat.le_refl _)]
          exact bytesCopy_slice buffer offset bs (by omega)
        rw [hslice]
        exact congrArg₂ _ rfl (ih (bytesCopy buffer offset bs) (offset + bs.length) hfit')

/-- The framed fields are packed contiguously, in order, starting at the
write offset. -/
theorem writeBufferAux_packed :
    ∀ (els : List JsField) (buffer : Bytes) (offset : Nat),
      offset + totalSize els ≤ buffer.length →
      ((writeBufferAux buffer offset els).1.drop offset).take (totalSize els)
        = (els.map (fun e => e.serialized.getD [])).flatten := by
  intro els
  induction els with
  | nil => intro buffer offset _; rfl
  | cons e rest ih =>
    intro buffer offset hfit
    rw [totalSize_cons] at hfit
    match he : e.serialized with
    | none =>
      have hlen : e.serializedLen = 0 := by simp [JsField.serializedLen, he]
      simp only [writeBufferAux, he, totalSize_cons, hlen, Nat.zero_add,
        List.map_cons, Option.getD_none, List.flatten_cons, List.nil_append]
      exact ih buffer offset (by omega)
    | some bs =>
      have hlen : e.serializedLen = bs.length := by simp [JsField.serializedLen, he]
      have hsz : min bs.length (buffer.length - offset) = bs.length := by omega
      have hcopylen : (bytesCopy buffer offset bs).length = buffer.length :=
        bytesCopy_length buffer offset bs (by omega)
      have hfit' : offset + bs.length + totalSize rest ≤ (bytesCopy buffer offset bs).length := by
        omega
      simp only [writeBufferAux, he, hsz, List.take_length, totalSize_cons, hlen,
        List.map_cons, Option.getD_some, List.flatten_cons]
      rw [List.take_add]
      have htake := writeBufferAux_take rest (bytesCopy buffer offset bs)
        (offset + bs.length) hfit'
      have hslice : ((writeBufferAux (bytesCopy buffer offset bs)
          (offset + bs.length) rest).1.drop offset).take bs.length = bs := by
        rw [slice_eq_of_take_eq htake (Nat.le_refl _)]
        exact bytesCopy_slice buffer offset bs (by omega)
      rw [hslice, List.drop_drop]
      rw [ih (bytesCopy buffer offset bs) (offset + bs.length) hfit']

/-- Concrete field list from the repository's own framing test:
`['0', '1', undefined, '123', null]`. -/
def demoFields : List JsField :=
  [.str [48], .str [49], .other, .str [49, 50, 51], .other]

/-- A concrete 20-byte zeroed buffer. -/
def demoBuffer : Bytes := List.replicate 20 0

/-- C5: for every list of fields whose total byte length fits the buffer,
`writeBuffer` packs the string/byte fields contiguously in order, records
each field's byte length in the sizes array (length 0 for every field that
is not a string or byte value), and `readBuffer` over the same buffer,
sizes array and field count reconstructs each framed field's exact original
bytes, yielding an absent value for each zero-length position. -/
theorem writeBuffer_readBuffer_roundTrip (buffer : Bytes) (elements : List JsField)
    (hfit : totalSize elements ≤ buffer.length) :
    (writeBuffer buffer elements).2 = elements.map JsField.serializedLen ∧
    (writeBuffer buffer elements).1.take (totalSize elements)
      = (elements.map (fun e => e.serialized.getD [])).flatten ∧
    readBuffer (writeBuffer buffer elements).1 (writeBuffer buffer elements).2
        elements.length
      = elements.map JsField.readBack := by
  have h0 : 0 + totalSize elements ≤ buffer.length := by omega
  refine ⟨writeBufferAux_sizes elements buffer 0 h0, ?_, ?_⟩
  · have h := writeBufferAux_packed elements buffer 0 h0
    rw [List.drop_zero] at h
    exact h
  · simp only [writeBuffer, readBuffer]
    rw [writeBufferAux_sizes elements buffer 0 h0]
    exact writeBufferAux_read elements buffer 0 h0

/-- Witness for C5 at the repository test's own input. -/
theorem writeBuffer_readBuffer_roundTrip_witness :
    totalSize demoFields ≤ demoBuffer.length ∧
    ((writeBuffer demoBuffer demoFields).2 = demoFields.map JsField.serializedLen ∧
     (writeBuffer demoBuffer demoFields).1.take (totalSize demoFields)
       = (demoFields.map (fun e => e.serialized.getD [])).flatten ∧
     readBuffer (writeBuffer demoBuffer demoFields).1 (writeBuffer demoBuffer demoFields).2
         demoFields.length
       = demoFields.map JsField.readBack) :=
  ⟨by decide, writeBuffer_readBuffer_roundTrip demoBuffer demoFields (by decide)⟩

/-- Framing an empty string and framing a non-serializable value leave the
buffer, the running offset and the sizes array in identical states. -/
theorem writeBufferAux_emptyStr :
    ∀ (pre : List JsField) (buffer : Bytes) (offset : Nat) (post : List JsField),
      writeBufferAux buffer offset (pre ++ JsField.str [] :: post)
        = writeBufferAux buffer offset (pre ++ JsField.other :: post) := by
  intro pre
  induction pre with
  | nil =>
    intro buffer offset post
    simp [writeBufferAux, JsField.serialized, bytesCopy_nil]
  | cons p pre ih =>
    intro buffer offset post
    match he : p.serialized with
    | none =>
      simp only [List.cons_append, writeBufferAux, he, List.append_eq]
      rw [ih buffer offset post]
    | some bs =>
      simp only [List.cons_append, writeBufferAux, he, List.append_eq]
      rw [ih (bytesCopy buffer offset
          (bs.take (min bs.length (buffer.length - offset))))
        (offset + min bs.length (buffer.length - offset)) post]

/-- The recorded length at an empty-string position is 0. -/
theorem writeBufferAux_sizes_emptyStr :
    ∀ (pre : List JsField) (buffer : Bytes) (offset : Nat) (post : List JsField),
      (writeBufferAux buffer offset (pre ++ JsField.str [] :: post)).2[pre.length]? = some 0 := by
  intro pre
  induction pre with
  | nil =>
    intro buffer offset post
    simp [writeBufferAux, JsField.serialized]
  | cons p pre ih =>
    intro buffer offset post
    match he : p.serialized with
    | none =>
      simp only [List.cons_append, writeBufferAux, he, List.length_cons,
        List.getElem?_cons_succ, List.append_eq]
      exact ih buffer offset post
    | some bs =>
      simp only [List.cons_append, writeBufferAux, he, List.length_cons,
        List.getElem?_cons_succ, List.append_eq]
      exact ih (bytesCopy buffer offset
          (bs.take (min bs.length (buffer.length - offset))))
        (offset + min bs.length (buffer.length - offset)) post

/-- C10: an empty string framed by `writeBuffer` is recorded with length 0
and read back by `readBuffer` as an absent field, and replacing an
empty-string element by a non-string element yields identical sizes,
buffer contents and `readBuffer` output. -/
theorem emptyString_indistinguishable_from_absent
    (buffer : Bytes) (pre post : List JsField)
    (hfit : totalSize (pre ++ JsField.str [] :: post) ≤ buffer.length) :
    writeBuffer buffer (pre ++ JsField.str [] :: post)
      = writeBuffer buffer (pre ++ JsField.other :: post) ∧
    (writeBuffer buffer (pre ++ JsField.str [] :: post)).2[pre.length]? = some 0 ∧
    (readBuffer (writeBuffer buffer (pre ++ JsField.str [] :: post)).1
        (writeBuffer buffer (pre ++ JsField.str [] :: post)).2
        (pre ++ JsField.str [] :: post).length)[pre.length]? = some none ∧
    readBuffer (writeBuffer buffer (pre ++ JsField.str [] :: post)).1
        (writeBuffer buffer (pre ++ JsField.str [] :: post)).2
        (pre ++ JsField.str [] :: post).length
      = readBuffer (writeBuffer buffer (pre ++ JsField.other :: post)).1
          (writeBuffer buffer (pre ++ JsField.other :: post)).2
          (pre ++ JsField.other :: post).length := by
  have heq := writeBufferAux_emptyStr pre buffer 0 post
  have h0 : 0 + totalSize (pre ++ JsField.str [] :: post) ≤ buffer.length := by omega
  have hread := writeBufferAux_read (pre ++ JsField.str [] :: post) buffer 0 h0
  have hsizes := writeBufferAux_sizes (pre ++ JsField.str [] :: post) buffer 0 h0
  refine ⟨heq, writeBufferAux_sizes_emptyStr pre buffer 0 post, ?_, ?_⟩
  · have : readBuffer (writeBuffer buffer (pre ++ JsField.str [] :: post)).1
        (writeBuffer buffer (pre ++ JsField.str [] :: post)).2
        (pre ++ JsField.str [] :: post).length
        = (pre ++ JsField.str [] :: post).map JsField.readBack := by
      simp only [writeBuffer, readBuffer]
      rw [hsizes]
      exact hread
    rw [this, List.getElem?_map, List.getElem?_append_right (Nat.le_refl _)]
    simp [JsField.readBack, JsField.serialized]
  · simp only [writeBuffer, readBuffer] at heq ⊢
    rw [heq]
    have hlen : (pre ++ JsField.str [] :: post).length
        = (pre ++ JsField.other :: post).length := by simp
    rw [hlen]

/-- Witness for C10 at a concrete input. -/
theorem emptyString_indistinguishable_from_absent_witness :
    totalSize ([JsField.str [48]] ++ JsField.str [] :: [JsField.str [49]])
        ≤ demoBuffer.length ∧
    writeBuffer demoBuffer ([JsField.str [48]] ++ JsField.str [] :: [JsField.str [49]])
      = writeBuffer demoBuffer ([JsField.str [48]] ++ JsField.other :: [JsField.str [49]]) :=
  ⟨by decide,
   (emptyString_indistinguishable_from_absent demoBuffer
     [JsField.str [48]] [JsField.str [49]] (by decide)).1⟩

/-! ## Pool lifecycle (`startWorkers` / `stopWorkers`, src/workers.js:63-114)

The module-level mutable state of `workers.js`: the `workers` list, the
`availableWorkers` queue (initialized to `[0, …, cores-1]`) and the four
per-worker shared-buffer arrays.  Worker handles are modelled by their
index.  The one-shot `Atomics.wait`/`Atomics.notify` boot handshake is a
real-time synchronization with no effect on this state and is not
modelled. -/

structure PoolState where
  workers : List Nat
  availableWorkers : List (Option Nat)
  requestsSharedBuffers : List Bytes
  repliesSharedBuffers : List Bytes
  requestsSizesArray : List (List Nat)
  repliesSizesArray : List (List Nat)
deriving DecidableEq

/-- The module state right after load: no workers, the availability queue
holds every core index, the buffer arrays are unallocated
(`Array(cores)` holds only holes, modelled as empty). -/
def initialPoolState (cores : Nat) : PoolState :=
  { workers := []
    availableWorkers := (List.range cores).map some
    requestsSharedBuffers := []
    repliesSharedBuffers := []
    requestsSizesArray := []
    repliesSizesArray := [] }

/-- `startWorkers(size = 4096)` (src/workers.js:63-98): an early return if
`workers` is non-empty; otherwise, for each of the `cores` indices,
allocate a zeroed request and reply shared buffer of `size` bytes and
zeroed 10-slot sizes arrays, spawn the worker and append it.  The
availability queue is not touched. -/
def startWorkers (cores : Nat) (s : PoolState) (size : Nat := 4096) : PoolState :=
  if s.workers.length ≠ 0 then s
  else
    { workers := List.range cores
      availableWorkers := s.availableWorkers
      requestsSharedBuffers := List.replicate cores (List.replicate size 0)
      repliesSharedBuffers := List.replicate cores (List.replicate size 0)
      requestsSizesArray := List.replicate cores (List.replicate 10 0)
      repliesSizesArray := List.replicate cores (List.replicate 10 0) }

/-- `stopWorkers(callback)` (src/workers.js:100-114): an early return if
`workers` is empty; otherwise every worker is terminated and `workers` is
reset to `[]`.  Nothing else — in particular not the availability queue —
is modified. -/
def stopWorkers (s : PoolState) : PoolState :=
  if s.workers.length = 0 then s
  else { s with workers := [] }

/-- The worker handles passed to `terminate()` by `stopWorkers`. -/
def stopWorkersTerminated (s : PoolState) : List Nat :=
  if s.workers.length = 0 then []
  else s.workers

/-- C6: `startWorkers` while the pool is running is a no-op leaving the
whole pool state unchanged, and `stopWorkers` while the pool is stopped is
likewise a no-op leaving the whole pool state unchanged. -/
theorem startWorkers_stopWorkers_idempotent (cores size : Nat) (s t : PoolState)
    (hrun : s.workers ≠ []) (hstop : t.workers = []) :
    startWorkers cores s size = s ∧ stopWorkers t = t := by
  constructor
  · have h : s.workers.length ≠ 0 := by
      intro h0
      exact hrun (List.length_eq_zero.mp h0)
    simp [startWorkers, h]
  · simp [stopWorkers, hstop]

/-- Witness for C6: a running one-worker pool and the freshly loaded
(stopped) module state. -/
theorem startWorkers_stopWorkers_idempotent_witness :
    (startWorkers 1 (startWorkers 1 (initialPoolState 1)) = startWorkers 1 (initialPoolState 1)
      ∧ stopWorkers (initialPoolState 1) = initialPoolState 1) :=
  startWorkers_stopWorkers_idempotent 1 4096 (startWorkers 1 (initialPoolState 1))
    (initialPoolState 1) (by decide) (by decide)

/-- C7 (amended): when the pool is running, `stopWorkers` terminates every
worker thread and empties the workers list, but it leaves the availability
queue (and the shared-buffer arrays) exactly as they were — the queue is
not cleared. -/
theorem stopWorkers_clears_pool_not_queue (s : PoolState) (hrun : s.workers ≠ []) :
    stopWorkersTerminated s = s.workers ∧
    (stopWorkers s).workers = [] ∧
    (stopWorkers s).availableWorkers = s.availableWorkers ∧
    (stopWorkers s).requestsSharedBuffers = s.requestsSharedBuffers ∧
    (stopWorkers s).repliesSharedBuffers = s.repliesSharedBuffers := by
  have h : ¬s.workers.length = 0 := by
    intro h0
    exact hrun (List.length_eq_zero.mp h0)
  simp [stopWorkers, stopWorkersTerminated, h]

/-- Witness for C7's amended theorem on a running two-worker pool. -/
theorem stopWorkers_clears_pool_not_queue_witness :
    (startWorkers 2 (initialPoolState 2)).workers ≠ [] ∧
    (stopWorkers (startWorkers 2 (initialPoolState 2))).workers = [] ∧
    (stopWorkers (startWorkers 2 (initialPoolState 2))).availableWorkers
      = (startWorkers 2 (initialPoolState 2)).availableWorkers :=
  ⟨by decide,
   (stopWorkers_clears_pool_not_queue (startWorkers 2 (initialPoolState 2)) (by decide)).2.1,
   (stopWorkers_clears_pool_not_queue (startWorkers 2 (initialPoolState 2)) (by decide)).2.2.1⟩

/-- C7 counterexample: on a running pool whose availability queue holds
index 1, `stopWorkers` leaves index 1 queued — the availability queue is
not emptied, contradicting the claim that after stop no stale worker index
remains queued. -/
theorem stopWorkers_leaves_queue_counterexample :
    (stopWorkers (startWorkers 2 (initialPoolState 2))).workers = [] ∧
    (stopWorkers (startWorkers 2 (initialPoolState 2))).availableWorkers
      = [some 0, some 1] := by decide

/-! ## Cross-thread error propagation (src/workers.js:52-61 and 145-183)

`createSignature` / `verifySignature` and the `TokenError` class live in
src/crypto.js and src/error.js, which are not under src/; the adapter's
error shape and `TokenError.wrap` are modelled from the spec (§4.2, §4.6,
§7).  The framing, the status discriminator, `handleWorker`'s reply path
and `deserializeWorkerError` are embedded from src/workers.js. -/

/-- Constructor class of a JavaScript error object. -/
inductive ErrClass
  | tokenError
  | plainError
deriving DecidableEq

/-- Modelled from the spec: a `TokenError` raised by the Algorithm Adapter
(src/crypto.js is not under src/).  Per spec §4.2/§7 an adapter failure is
a typed error carrying a stable code, message and stack, wrapping the
underlying cause, whose own (optional) code, message and stack are the
three `orig` fields. -/
structure WorkerErr where
  code : String
  message : String
  stack : String
  origCode : Option String
  origMessage : String
  origStack : String
deriving DecidableEq

/-- An exception caught inside the worker thread: either a `TokenError`
(what the Algorithm Adapter raises) or any other error. -/
inductive Caught
  | tokenError (e : WorkerErr)
  | other (code : Option String) (message stack : String)
deriving DecidableEq

/-- The constructor class of a caught exception. -/
def Caught.cls : Caught → ErrClass
  | .tokenError _ => .tokenError
  | .other .. => .plainError

/-- The stack string captured when `TokenError.wrap` constructs a new
`TokenError`; its concrete value never reaches a claim. -/
def newTokenErrorStack : String := ""

/-- Modelled from the spec: `TokenError.wrap(error, code, message)`
(src/error.js is not under src/) returns a `TokenError` unchanged and
wraps any other error in a new `TokenError` with the given code and
message, recording the original error — spec §4.6: a worker error is
captured with its own classification code and message so the caller-side
reconstruction is indistinguishable from the in-process error. -/
def TokenError.wrap (e : Caught) (code message : String) : WorkerErr :=
  match e with
  | .tokenError t => t
  | .other c m s =>
    { code := code, message := message, stack := newTokenErrorStack
      origCode := c, origMessage := m, origStack := s }

/-- Modelled from the spec: `TokenError.codes.workerError`
(src/error.js is not under src/). -/
def workerErrorCode : String := "FAST_JWT_WORKER_ERROR"

/-- The wrap message used by `handleWorker` (src/workers.js:165). -/
def workerErrorMessage : String := "Cannot perform operation using worker."

/-- The reply fields `handleWorker` frames (src/workers.js:161,167-174):
one result field on success, the six error strings on failure
(a missing original code is replaced by `''`). -/
def workerReplyFrame : Except Caught String → List JsField
  | .ok rv => [.str (strBytes rv)]
  | .error c =>
    let e := TokenError.wrap c workerErrorCode workerErrorMessage
    [.str (strBytes e.code), .str (strBytes e.message), .str (strBytes e.stack),
     .str (strBytes (e.origCode.getD "")), .str (strBytes e.origMessage),
     .str (strBytes e.origStack)]

/-- The status discriminator `handleWorker` posts (src/workers.js:163,176):
`0` on success, `-1` on failure. -/
def workerReplyStatus : Except Caught String → Int
  | .ok _ => 0
  | .error _ => -1

/-- `handleWorker`'s reply path: frame the reply into the reply buffer
(updating the reply sizes array) and post the status. -/
def handleWorkerReply (outcome : Except Caught String) (replyBuffer : Bytes) :
    (Bytes × List Nat) × Int :=
  (writeBuffer replyBuffer (workerReplyFrame outcome), workerReplyStatus outcome)

/-- The error object `deserializeWorkerError` rebuilds
(src/workers.js:52-61): a `TokenError` carrying the framed code, message
and stack, wrapping a plain `Error` carrying the framed original code,
message and stack. -/
structure ReconErr where
  cls : ErrClass
  code : Option String
  message : Option String
  stack : Option String
  origCls : ErrClass
  origCode : Option String
  origMessage : Option String
  origStack : Option String
deriving DecidableEq

/-- `deserializeWorkerError(code, message, stack, originalCode,
originalMessage, originalStack)` (src/workers.js:52-61). -/
def deserializeWorkerError
    (code message stack origCode origMessage origStack : Option String) : ReconErr :=
  { cls := .tokenError, code := code, message := message, stack := stack
    origCls := .plainError, origCode := origCode, origMessage := origMessage
    origStack := origStack }

/-- The caller's unframe count, `response === 0 ? 1 : 6`
(src/workers.js:210,253). -/
def callerFieldCount (response : Int) : Nat :=
  if response = 0 then 1 else 6

/-- The value the caller's sign reply handler delivers to its callback. -/
inductive SignResult
  | ok (signature : String)
  | err (e : ReconErr)
deriving DecidableEq

/-- The caller's reply handler for a sign offload (src/workers.js:209-222):
unframe `callerFieldCount response` fields from the reply region; on a
negative status rebuild the error via `deserializeWorkerError`, mapping
each absent field to `null`; otherwise decode the single result field.
(On success the source runs `Buffer.from(data[0])`, which presupposes a
non-empty result field; `getD []` stands for that never-exercised case.) -/
def callerHandleReply (replyBuffer : Bytes) (sizes : List Nat) (response : Int) :
    SignResult :=
  let data := readBuffer replyBuffer sizes (callerFieldCount response)
  if response < 0 then
    let f : Nat → Option String := fun i => (data.getD i none).map bytesToStr
    .err (deserializeWorkerError (f 0) (f 1) (f 2) (f 3) (f 4) (f 5))
  else
    .ok (bytesToStr ((data.getD 0 none).getD []))

theorem bytesToStr_strBytes (s : String) : bytesToStr (strBytes s) = s := by
  simp only [bytesToStr, strBytes, List.map_map]
  have h : s.data.map (Char.ofNat ∘ Char.toNat) = s.data.map id :=
    List.map_congr_left fun c _ => Char.ofNat_toNat c
  rw [h, List.map_id]

theorem strBytes_length (s : String) : (strBytes s).length = s.data.length := by
  simp [strBytes]

theorem strBytes_eq_nil_iff (s : String) : strBytes s = [] ↔ s = "" := by
  constructor
  · intro h
    have : s.data = [] := by
      have := congrArg List.length h
      simp [strBytes] at this
      exact List.length_eq_zero.mp this
    cases s
    simp_all
  · intro h
    simp [h, strBytes]

/-- Shared round trip: `readBuffer` over the buffer and sizes array that
`writeBuffer` produced recovers each field's read-back value. -/
theorem readBuffer_writeBuffer (buffer : Bytes) (els : List JsField)
    (hfit : totalSize els ≤ buffer.length) :
    readBuffer (writeBuffer buffer els).1 (writeBuffer buffer els).2 els.length
      = els.map JsField.readBack := by
  simp only [writeBuffer, readBuffer]
  rw [writeBufferAux_sizes els buffer 0 (by omega)]
  exact writeBufferAux_read els buffer 0 (by omega)

theorem readBack_str_of_ne (s : String) (h : s ≠ "") :
    JsField.readBack (.str (strBytes s)) = some (strBytes s) := by
  have hlen : (strBytes s).length ≠ 0 := by
    intro h0
    exact h ((strBytes_eq_nil_iff s).mp (List.length_eq_zero.mp h0))
  simp [JsField.readBack, JsField.serialized, hlen]

theorem readBack_str_empty : JsField.readBack (.str (strBytes "")) = none := by
  simp [JsField.readBack, JsField.serialized, strBytes]

/-- C3: the status discriminator determines the frame shape on both sides.
On success the worker frames exactly one result field and posts status `0`
(non-negative); on failure it frames exactly six string fields — code,
message, stack, original code, original message, original stack — and
posts status `-1` (negative).  The caller unframes one field for the
non-negative status and six fields for the negative status, and from a
six-field failure reply rebuilds a `TokenError` whose class, code and
message equal those of the adapter error `t` the equivalent in-process
path would deliver to the callback, wrapping an original error carrying
the framed original code, message and stack. -/
theorem worker_reply_protocol (replyBuffer : Bytes) (rv : String) (t : WorkerErr)
    (h : rv ≠ "" ∧ t.code ≠ "" ∧ t.message ≠ "" ∧ t.stack ≠ "" ∧
      t.origCode ≠ some "" ∧ t.origMessage ≠ "" ∧ t.origStack ≠ "" ∧
      totalSize (workerReplyFrame (.ok rv)) ≤ replyBuffer.length ∧
      totalSize (workerReplyFrame (.error (.tokenError t))) ≤ replyBuffer.length) :
    (workerReplyFrame (.ok rv)).length = 1 ∧
    workerReplyStatus (.ok rv) = 0 ∧
    callerFieldCount (workerReplyStatus (.ok rv)) = (workerReplyFrame (.ok rv)).length ∧
    callerHandleReply (handleWorkerReply (.ok rv) replyBuffer).1.1
      (handleWorkerReply (.ok rv) replyBuffer).1.2
      (handleWorkerReply (.ok rv) replyBuffer).2 = SignResult.ok rv ∧
    (workerReplyFrame (.error (.tokenError t))).length = 6 ∧
    (∀ fld ∈ workerReplyFrame (.error (.tokenError t)), ∃ b, fld = JsField.str b) ∧
    workerReplyStatus (.error (.tokenError t)) = -1 ∧
    callerFieldCount (workerReplyStatus (.error (.tokenError t)))
      = (workerReplyFrame (.error (.tokenError t))).length ∧
    callerHandleReply (handleWorkerReply (.error (.tokenError t)) replyBuffer).1.1
      (handleWorkerReply (.error (.tokenError t)) replyBuffer).1.2
      (handleWorkerReply (.error (.tokenError t)) replyBuffer).2
      = SignResult.err
          { cls := (Caught.tokenError t).cls, code := some t.code,
            message := some t.message, stack := some t.stack,
            origCls := ErrClass.plainError, origCode := t.origCode,
            origMessage := some t.origMessage, origStack := some t.origStack } := by
  obtain ⟨hrv, hc, hm, hs, hoc, hom, hos, hfit1, hfit6⟩ := h
  have hdata1 : readBuffer (writeBuffer replyBuffer [JsField.str (strBytes rv)]).1
      (writeBuffer replyBuffer [JsField.str (strBytes rv)]).2 1
      = [some (strBytes rv)] := by
    have hr := readBuffer_writeBuffer replyBuffer [JsField.str (strBytes rv)]
      (by simpa [workerReplyFrame] using hfit1)
    simpa [readBack_str_of_ne rv hrv] using hr
  have hframe6 : workerReplyFrame (.error (.tokenError t))
      = [JsField.str (strBytes t.code), JsField.str (strBytes t.message),
         JsField.str (strBytes t.stack), JsField.str (strBytes (t.origCode.getD "")),
         JsField.str (strBytes t.origMessage), JsField.str (strBytes t.origStack)] := rfl
  have hdata6 : readBuffer (writeBuffer replyBuffer (workerReplyFrame (.error (.tokenError t)))).1
      (writeBuffer replyBuffer (workerReplyFrame (.error (.tokenError t)))).2 6
      = [some (strBytes t.code), some (strBytes t.message), some (strBytes t.stack),
         JsField.readBack (.str (strBytes (t.origCode.getD ""))),
         some (strBytes t.origMessage), some (strBytes t.origStack)] := by
    have hr := readBuffer_writeBuffer replyBuffer (workerReplyFrame (.error (.tokenError t))) hfit6
    rw [hframe6] at hr ⊢
    simpa [readBack_str_of_ne _ hc, readBack_str_of_ne _ hm, readBack_str_of_ne _ hs,
      readBack_str_of_ne _ hom, readBack_str_of_ne _ hos] using hr
  have hoc3 : (JsField.readBack (.str (strBytes (t.origCode.getD "")))).map bytesToStr
      = t.origCode := by
    match hx : t.origCode with
    | none => simp [readBack_str_empty]
    | some c =>
      have hcne : c ≠ "" := by
        intro hce
        exact hoc (by rw [hx, hce])
      simp [readBack_str_of_ne c hcne, bytesToStr_strBytes]
  refine ⟨rfl, rfl, rfl, ?_, rfl, ?_, rfl, rfl, ?_⟩
  · simp only [handleWorkerReply, workerReplyStatus, workerReplyFrame, callerHandleReply,
      callerFieldCount, if_pos rfl]
    rw [if_neg (by decide)]
    rw [show ((1 : Nat)) = callerFieldCount 0 from rfl] at hdata1
    simp only [callerFieldCount, if_pos rfl] at hdata1
    rw [hdata1]
    simp [bytesToStr_strBytes]
  · intro fld hfld
    rw [hframe6] at hfld
    simp only [List.mem_cons, List.not_mem_nil, or_false] at hfld
    rcases hfld with h1 | h1 | h1 | h1 | h1 | h1 <;> exact ⟨_, h1⟩
  · simp only [handleWorkerReply, workerReplyStatus, callerHandleReply, callerFieldCount]
    rw [if_pos (show (-1 : Int) < 0 by decide),
      if_neg (show ¬((-1 : Int) = 0) by decide)]
    rw [hdata6]
    simp [List.getD, List.get?, deserializeWorkerError, hoc3, Caught.cls,
      bytesToStr_strBytes]

/-- A concrete 32-byte zeroed reply buffer. -/
def demoReplyBuffer : Bytes := List.replicate 32 0

/-- A concrete adapter error. -/
def demoWorkerErr : WorkerErr :=
  { code := "EC", message := "EM", stack := "ES"
    origCode := some "OC", origMessage := "OM", origStack := "OS" }

/-- Witness for C3 at a concrete success value and a concrete adapter
error. -/
theorem worker_reply_protocol_witness :
    ("sig" ≠ "" ∧ demoWorkerErr.code ≠ "" ∧ demoWorkerErr.message ≠ "" ∧
      demoWorkerErr.stack ≠ "" ∧ demoWorkerErr.origCode ≠ some "" ∧
      demoWorkerErr.origMessage ≠ "" ∧ demoWorkerErr.origStack ≠ "" ∧
      totalSize (workerReplyFrame (.ok "sig")) ≤ demoReplyBuffer.length ∧
      totalSize (workerReplyFrame (.error (.tokenError demoWorkerErr)))
        ≤ demoReplyBuffer.length) ∧
    callerHandleReply (handleWorkerReply (.ok "sig") demoReplyBuffer).1.1
      (handleWorkerReply (.ok "sig") demoReplyBuffer).1.2
      (handleWorkerReply (.ok "sig") demoReplyBuffer).2 = SignResult.ok "sig" ∧
    callerHandleReply
      (handleWorkerReply (.error (.tokenError demoWorkerErr)) demoReplyBuffer).1.1
      (handleWorkerReply (.error (.tokenError demoWorkerErr)) demoReplyBuffer).1.2
      (handleWorkerReply (.error (.tokenError demoWorkerErr)) demoReplyBuffer).2
      = SignResult.err
          { cls := (Caught.tokenError demoWorkerErr).cls,
            code := some demoWorkerErr.code,
            message := some demoWorkerErr.message,
            stack := some demoWorkerErr.stack,
            origCls := ErrClass.plainError,
            origCode := demoWorkerErr.origCode,
            origMessage := some demoWorkerErr.origMessage,
            origStack := some demoWorkerErr.origStack } :=
  ⟨by decide,
   (worker_reply_protocol demoReplyBuffer "sig" demoWorkerErr (by decide)).2.2.2.1,
   (worker_reply_protocol demoReplyBuffer "sig" demoWorkerErr
     (by decide)).2.2.2.2.2.2.2.2⟩

/-! ## Worker acquisition (`getAvailableWorker`, src/workers.js:116-129)

Each retry of `getAvailableWorker` runs after a `setTimeout` with a
randomized delay, so other handlers may have mutated the module state in
between.  `env k` is the `(availableWorkers, workers.length)` pair the
call with remaining budget `k` observes; the randomized delay length
itself does not influence the result and is not modelled.  `shift()` on
the queue returns `undefined` on an empty queue or a hole, the stored
number otherwise; `callback(null)` and `callback(undefined)` are both
`none` (only ever consumed by the falsy test `!workerIndex`). -/

abbrev AcquireEnv := Nat → List (Option Nat) × Nat

/-- `getAvailableWorker(callback, attempts)`: the value the (single)
callback invocation receives.  With no workers it is `null`; a falsy
shifted value (`undefined` from an empty queue or a hole, or the number
`0`) with budget left schedules a retry; otherwise the shifted value is
delivered — including, when the budget is exhausted, the falsy index `0`. -/
def getAvailableWorker (env : AcquireEnv) : Nat → Option Nat
  | 0 =>
    if (env 0).2 = 0 then none
    else
      match (env 0).1 with
      | [] => none
      | none :: _ => none
      | some w :: _ => some w
  | Nat.succ n =>
    if (env (n + 1)).2 = 0 then none
    else
      match (env (n + 1)).1 with
      | [] => getAvailableWorker env n
      | none :: _ => getAvailableWorker env n
      | some 0 :: _ => getAvailableWorker env n
      | some (Nat.succ w) :: _ => some (w + 1)

/-- The list of callback invocations made by `getAvailableWorker`, one
entry per `callback(...)` call site executed. -/
def getAvailableWorkerCalls (env : AcquireEnv) : Nat → List (Option Nat)
  | 0 =>
    if (env 0).2 = 0 then [none]
    else
      match (env 0).1 with
      | [] => [none]
      | none :: _ => [none]
      | some w :: _ => [some w]
  | Nat.succ n =>
    if (env (n + 1)).2 = 0 then [none]
    else
      match (env (n + 1)).1 with
      | [] => getAvailableWorkerCalls env n
      | none :: _ => getAvailableWorkerCalls env n
      | some 0 :: _ => getAvailableWorkerCalls env n
      | some (Nat.succ w) :: _ => [some (w + 1)]

/-- The number of `setTimeout` retries `getAvailableWorker` schedules. -/
def getAvailableWorkerRetries (env : AcquireEnv) : Nat → Nat
  | 0 => 0
  | Nat.succ n =>
    if (env (n + 1)).2 = 0 then 0
    else
      match (env (n + 1)).1 with
      | [] => getAvailableWorkerRetries env n + 1
      | none :: _ => getAvailableWorkerRetries env n + 1
      | some 0 :: _ => getAvailableWorkerRetries env n + 1
      | some (Nat.succ _) :: _ => 0

/-- The queue head when it is a usable (truthy) worker index. -/
def usableHead : List (Option Nat) → Option Nat
  | some (Nat.succ w) :: _ => some (w + 1)
  | _ => none

/-- A worker-index callback value the dispatchers treat as "no worker"
(the falsy test `!workerIndex`): `null`/`undefined`, or the index `0`. -/
def falsyIdx (w : Option Nat) : Prop := w = none ∨ w = some 0

theorem getAvailableWorkerCalls_eq (env : AcquireEnv) :
    ∀ attempts, getAvailableWorkerCalls env attempts
      = [getAvailableWorker env attempts] := by
  intro attempts
  induction attempts with
  | zero =>
    by_cases h : (env 0).2 = 0
    · simp [getAvailableWorkerCalls, getAvailableWorker, h]
    · simp only [getAvailableWorkerCalls, getAvailableWorker, if_neg h]
      cases hq : (env 0).1 with
      | nil => rfl
      | cons o rest => cases o with
        | none => rfl
        | some w => rfl
  | succ n ih =>
    by_cases h : (env (n + 1)).2 = 0
    · simp [getAvailableWorkerCalls, getAvailableWorker, h]
    · simp only [getAvailableWorkerCalls, getAvailableWorker, if_neg h]
      cases hq : (env (n + 1)).1 with
      | nil => exact ih
      | cons o rest => cases o with
        | none => exact ih
        | some w => cases w with
          | zero => exact ih
          | succ w => rfl

theorem getAvailableWorkerRetries_le (env : AcquireEnv) :
    ∀ attempts, getAvailableWorkerRetries env attempts ≤ attempts := by
  intro attempts
  induction attempts with
  | zero => exact Nat.le_refl 0
  | succ n ih =>
    by_cases h : (env (n + 1)).2 = 0
    · simp [getAvailableWorkerRetries, h]
    · simp only [getAvailableWorkerRetries, if_neg h]
      cases hq : (env (n + 1)).1 with
      | nil => exact Nat.add_le_add_right ih 1
      | cons o rest => cases o with
        | none => exact Nat.add_le_add_right ih 1
        | some w => cases w with
          | zero => exact Nat.add_le_add_right ih 1
          | succ w => exact Nat.zero_le _

theorem getAvailableWorker_no_usable (env : AcquireEnv) :
    ∀ attempts, (∀ k, usableHead (env k).1 = none) →
      falsyIdx (getAvailableWorker env attempts) := by
  intro attempts hk
  induction attempts with
  | zero =>
    by_cases h : (env 0).2 = 0
    · simp [getAvailableWorker, h, falsyIdx]
    · simp only [getAvailableWorker, if_neg h]
      cases hq : (env 0).1 with
      | nil => simp [falsyIdx]
      | cons o rest => cases o with
        | none => simp [falsyIdx]
        | some w => cases w with
          | zero => simp [falsyIdx]
          | succ w =>
            have := hk 0
            rw [hq] at this
            simp [usableHead] at this
  | succ n ih =>
    by_cases h : (env (n + 1)).2 = 0
    · simp [getAvailableWorker, h, falsyIdx]
    · simp only [getAvailableWorker, if_neg h]
      cases hq : (env (n + 1)).1 with
      | nil => exact ih
      | cons o rest => cases o with
        | none => exact ih
        | some w => cases w with
          | zero => exact ih
          | succ w =>
            have := hk (n + 1)
            rw [hq] at this
            simp [usableHead] at this

/-- C8: `getAvailableWorker` always terminates with exactly one callback
invocation; a truthy queue head is popped and delivered; otherwise it
retries at most `attempts` times (the budget, default 3); when no workers
exist, or when no usable index was ever observed across the budget, the
callback receives no usable worker index (the fallback signal). -/
theorem getAvailableWorker_terminates_single_callback (env : AcquireEnv) (attempts : Nat) :
    getAvailableWorkerCalls env attempts = [getAvailableWorker env attempts] ∧
    getAvailableWorkerRetries env attempts ≤ attempts ∧
    ((env attempts).2 = 0 → getAvailableWorker env attempts = none) ∧
    ((env attempts).2 ≠ 0 → ∀ w, usableHead (env attempts).1 = some w →
      getAvailableWorker env attempts = some w) ∧
    ((∀ k, usableHead (env k).1 = none) →
      falsyIdx (getAvailableWorker env attempts)) := by
  refine ⟨getAvailableWorkerCalls_eq env attempts,
    getAvailableWorkerRetries_le env attempts, ?_, ?_, getAvailableWorker_no_usable env attempts⟩
  · intro h
    cases attempts with
    | zero => simp [getAvailableWorker, h]
    | succ n => simp [getAvailableWorker, h]
  · intro h w hw
    cases attempts with
    | zero =>
      cases hq : (env 0).1 with
      | nil => rw [hq] at hw; simp [usableHead] at hw
      | cons o rest =>
        cases o with
        | none => rw [hq] at hw; simp [usableHead] at hw
        | some v => cases v with
          | zero => rw [hq] at hw; simp [usableHead] at hw
          | succ v =>
            rw [hq] at hw
            simp only [usableHead, Option.some.injEq] at hw
            subst hw
            simp [getAvailableWorker, if_neg h, hq]
    | succ n =>
      cases hq : (env (n + 1)).1 with
      | nil => rw [hq] at hw; simp [usableHead] at hw
      | cons o rest =>
        cases o with
        | none => rw [hq] at hw; simp [usableHead] at hw
        | some v => cases v with
          | zero => rw [hq] at hw; simp [usableHead] at hw
          | succ v =>
            rw [hq] at hw
            simp only [usableHead, Option.some.injEq] at hw
            subst hw
            simp [getAvailableWorker, if_neg h, hq]

/-- Witness for C8: one worker whose queue is always observed empty — the
call terminates with a single fallback callback. -/
theorem getAvailableWorker_terminates_single_callback_witness :
    (∀ k : Nat, usableHead ((fun _ => (([] : List (Option Nat)), 1)) k).1 = none) ∧
    getAvailableWorkerCalls (fun _ => ([], 1)) 3
      = [getAvailableWorker (fun _ => ([], 1)) 3] ∧
    falsyIdx (getAvailableWorker (fun _ => ([], 1)) 3) :=
  ⟨fun _ => rfl,
   (getAvailableWorker_terminates_single_callback (fun _ => ([], 1)) 3).1,
   (getAvailableWorker_terminates_single_callback (fun _ => ([], 1)) 3).2.2.2.2
     (fun _ => rfl)⟩

/-! ## Caller dispatch (`createSignatureWithWorker` /
`verifySignatureWithWorker`, src/workers.js:185-270)

`createSignature` / `verifySignature` live in src/crypto.js, which is not
under src/; the in-process outcome is therefore a parameter, and the
`try`/`catch` around the synchronous fallback delivers exactly that
outcome (value or error) to the callback. -/

/-- What the sign caller does with the acquired value: the synchronous
fallback delivering the in-process outcome, or an offload — the framed
five-field request written to that worker's request region, a one-shot
reply handler installed, and a content-free notify (`postMessage(0)`)
sent to that same worker. -/
inductive SignDispatch
  | sync (result : Except Caught String)
  | offload (workerIndex : Nat) (frame : List JsField) (notifyContent : Nat)

/-- The `if (!workerIndex)` branch split of `createSignatureWithWorker`
(src/workers.js:189-226): `null`, `undefined` and the index `0` are all
falsy and take the synchronous branch. -/
def createSignatureWithWorkerDispatch (workerIndex : Option Nat)
    (algorithm secret header payload : JsField)
    (inProcess : Except Caught String) : SignDispatch :=
  match workerIndex with
  | none => .sync inProcess
  | some 0 => .sync inProcess
  | some (Nat.succ i) =>
    .offload (i + 1) [.str (strBytes "sign"), algorithm, secret, header, payload] 0

/-- `createSignatureWithWorker` (src/workers.js:185-227): acquire with the
default budget of 3, then dispatch on the yielded value. -/
def createSignatureWithWorker (env : AcquireEnv)
    (algorithm secret header payload : JsField)
    (inProcess : Except Caught String) : SignDispatch :=
  createSignatureWithWorkerDispatch (getAvailableWorker env 3)
    algorithm secret header payload inProcess

/-- Verify-side dispatch outcome. -/
inductive VerifyDispatch
  | sync (result : Except Caught Bool)
  | offload (workerIndex : Nat) (frame : List JsField) (notifyContent : Nat)

/-- The `if (!workerIndex)` branch split of `verifySignatureWithWorker`
(src/workers.js:232-269). -/
def verifySignatureWithWorkerDispatch (workerIndex : Option Nat)
    (algorithm secret input signature : JsField)
    (inProcess : Except Caught Bool) : VerifyDispatch :=
  match workerIndex with
  | none => .sync inProcess
  | some 0 => .sync inProcess
  | some (Nat.succ i) =>
    .offload (i + 1) [.str (strBytes "verify"), algorithm, secret, input, signature] 0

/-- `verifySignatureWithWorker` (src/workers.js:229-270). -/
def verifySignatureWithWorker (env : AcquireEnv)
    (algorithm secret input signature : JsField)
    (inProcess : Except Caught Bool) : VerifyDispatch :=
  verifySignatureWithWorkerDispatch (getAvailableWorker env 3)
    algorithm secret input signature inProcess

/-- C2: if the pool was never started (no workers exist) or no usable
worker index is ever available across the bounded retry budget, both
operations execute synchronously via the in-process
`createSignature`/`verifySignature`, the callback receives exactly the
in-process result or error, and the fallback is never itself an error —
every such call still resolves, with the dispatched outcome being
precisely the in-process one. -/
theorem fallback_executes_in_process (env : AcquireEnv)
    (algorithm secret header payload input signature : JsField)
    (sres : Except Caught String) (vres : Except Caught Bool)
    (h : (env 3).2 = 0 ∨ (∀ k, usableHead (env k).1 = none)) :
    createSignatureWithWorker env algorithm secret header payload sres
      = SignDispatch.sync sres ∧
    verifySignatureWithWorker env algorithm secret input signature vres
      = VerifyDispatch.sync vres := by
  have hfalsy : falsyIdx (getAvailableWorker env 3) := by
    rcases h with h1 | h2
    · left
      simp [getAvailableWorker, h1]
    · exact getAvailableWorker_no_usable env 3 h2
  rcases hfalsy with hf | hf <;>
    simp [createSignatureWithWorker, verifySignatureWithWorker,
      createSignatureWithWorkerDispatch, verifySignatureWithWorkerDispatch, hf]

/-- Witness for C2: a never-started pool. -/
theorem fallback_executes_in_process_witness :
    ((fun (_ : Nat) => (([] : List (Option Nat)), 0)) 3).2 = 0 ∧
    createSignatureWithWorker (fun _ => ([], 0)) JsField.other JsField.other
      JsField.other JsField.other (.ok "sig") = SignDispatch.sync (.ok "sig") ∧
    verifySignatureWithWorker (fun _ => ([], 0)) JsField.other JsField.other
      JsField.other JsField.other (.ok true) = VerifyDispatch.sync (.ok true) :=
  ⟨rfl,
   (fallback_executes_in_process (fun _ => ([], 0)) JsField.other JsField.other
     JsField.other JsField.other JsField.other JsField.other (.ok "sig") (.ok true)
     (Or.inl rfl)).1,
   (fallback_executes_in_process (fun _ => ([], 0)) JsField.other JsField.other
     JsField.other JsField.other JsField.other JsField.other (.ok "sig") (.ok true)
     (Or.inl rfl)).2⟩

/-- C4 evidence: for every truthy yielded index the callers frame exactly
the agreed five fields in order and send the content-free notify to that
worker; but the yielded index 0 — which `getAvailableWorker` does deliver
when its budget is exhausted with 0 at the queue head — takes the
`!workerIndex` branch in both callers and is executed synchronously
instead, contradicting the claim for index 0. -/
theorem dispatch_drops_worker_zero
    (algorithm secret header payload input signature : JsField)
    (sres : Except Caught String) (vres : Except Caught Bool) :
    (∀ i : Nat,
      createSignatureWithWorkerDispatch (some (i + 1)) algorithm secret header payload sres
        = SignDispatch.offload (i + 1)
            [.str (strBytes "sign"), algorithm, secret, header, payload] 0) ∧
    (∀ i : Nat,
      verifySignatureWithWorkerDispatch (some (i + 1)) algorithm secret input signature vres
        = VerifyDispatch.offload (i + 1)
            [.str (strBytes "verify"), algorithm, secret, input, signature] 0) ∧
    createSignatureWithWorkerDispatch (some 0) algorithm secret header payload sres
      = SignDispatch.sync sres ∧
    verifySignatureWithWorkerDispatch (some 0) algorithm secret input signature vres
      = VerifyDispatch.sync vres ∧
    getAvailableWorker (fun _ => ([some 0], 1)) 0 = some 0 :=
  ⟨fun _ => rfl, fun _ => rfl, rfl, rfl, rfl⟩

/-! ## Reply handlers and queue release (src/workers.js:208-222, 251-265) -/

/-- JavaScript array element assignment `a[i] = v`: set in place when `i`
is in range, otherwise extend with holes up to position `i` and append. -/
def jsSetAt (a : List (Option Nat)) (i : Nat) (v : Nat) : List (Option Nat) :=
  if i < a.length then a.set i (some v)
  else a ++ List.replicate (i - a.length) none ++ [some v]

/-- The sign reply handler (src/workers.js:209-222): read the reply
region, push the worker index back onto the availability queue
(`availableWorkers.push(workerIndex)`), then invoke the callback.  The
first component is the queue as of the callback invocation. -/
def signReplyHandler (queue : List (Option Nat)) (workerIndex : Nat)
    (replyBuffer : Bytes) (sizes : List Nat) (response : Int) :
    List (Option Nat) × SignResult :=
  (queue ++ [some workerIndex], callerHandleReply replyBuffer sizes response)

/-- The value the verify reply handler delivers to its callback. -/
inductive VerifyResult
  | ok (valid : Bool)
  | err (e : ReconErr)
deriving DecidableEq

/-- The verify caller's reply decoding (src/workers.js:253-264): same
unframe logic as the sign side, with the success value
`data[0].toString('utf-8') === 'true'`. -/
def callerHandleReplyVerify (replyBuffer : Bytes) (sizes : List Nat) (response : Int) :
    VerifyResult :=
  let data := readBuffer replyBuffer sizes (callerFieldCount response)
  if response < 0 then
    let f : Nat → Option String := fun i => (data.getD i none).map bytesToStr
    .err (deserializeWorkerError (f 0) (f 1) (f 2) (f 3) (f 4) (f 5))
  else
    .ok (bytesToStr ((data.getD 0 none).getD []) == "true")

/-- The verify reply handler (src/workers.js:252-265): it runs
`availableWorkers[workerIndex] = 0` — an indexed assignment of the value
`0` — instead of pushing `workerIndex` back. -/
def verifyReplyHandler (queue : List (Option Nat)) (workerIndex : Nat)
    (replyBuffer : Bytes) (sizes : List Nat) (response : Int) :
    List (Option Nat) × VerifyResult :=
  (jsSetAt queue workerIndex 0, callerHandleReplyVerify replyBuffer sizes response)

/-- C1 evidence: the sign reply handler does put the worker index back in
the availability queue before invoking the callback, but the verify reply
handler does not — replying from worker slot 1 with an empty queue leaves
the queue as `[hole, 0]`, of which index 1 is not a member. -/
theorem verify_reply_handler_drops_index
    (queue : List (Option Nat)) (workerIndex : Nat)
    (replyBuffer : Bytes) (sizes : List Nat) (response : Int) :
    some workerIndex ∈ (signReplyHandler queue workerIndex replyBuffer sizes response).1 ∧
    (verifyReplyHandler [] 1 replyBuffer sizes response).1 = [none, some 0] ∧
    some 1 ∉ (verifyReplyHandler [] 1 replyBuffer sizes response).1 := by
  refine ⟨?_, rfl, ?_⟩
  · simp [signReplyHandler]
  · simp [verifyReplyHandler, jsSetAt]

/-! ## Mutual exclusion of worker slots (C9)

The queue protocol at event granularity.  All queue mutations happen on
the main thread (JavaScript callbacks never run in parallel), so an
execution is a sequence of atomic events: an acquisition shift that
dispatches a truthy index (the operation becomes the slot's owner and is
the only code that writes that slot's request region and reads its reply
region), an acquisition shift that discards a falsy head (`undefined`
from an empty queue or a hole, or the index `0` — such values are never
dispatched, they lead to a retry or the synchronous fallback, touching no
slot), a sign-side release (`availableWorkers.push(workerIndex)`), and a
verify-side release (`availableWorkers[workerIndex] = 0`).
`startWorkers`/`stopWorkers` touch neither the queue nor the owners. -/

structure SlotProtocolState where
  queue : List (Option Nat)
  owners : List Nat
deriving DecidableEq

/-- One scheduler event of the acquire/release discipline. -/
inductive SlotStep : SlotProtocolState → SlotProtocolState → Prop
  | acquireDispatch (s : SlotProtocolState) (w : Nat) (rest : List (Option Nat)) :
      s.queue = some (w + 1) :: rest →
      SlotStep s ⟨rest, (w + 1) :: s.owners⟩
  | acquireDrop (s : SlotProtocolState) (x : Option Nat) (rest : List (Option Nat)) :
      s.queue = x :: rest → (x = none ∨ x = some 0) →
      SlotStep s ⟨rest, s.owners⟩
  | signRelease (s : SlotProtocolState) (i : Nat) :
      i ∈ s.owners →
      SlotStep s ⟨s.queue ++ [some i], s.owners.erase i⟩
  | verifyRelease (s : SlotProtocolState) (i : Nat) :
      i ∈ s.owners →
      SlotStep s ⟨jsSetAt s.queue i 0, s.owners.erase i⟩

/-- Module-load state: the queue holds every index, nothing is owned. -/
def initSlotState (cores : Nat) : SlotProtocolState :=
  ⟨(List.range cores).map some, []⟩

/-- The single-owner-at-a-time discipline: every truthy index is, between
the queue and the in-flight owners, present at most once; the falsy index
0 is never owned. -/
def slotExclusion (s : SlotProtocolState) : Prop :=
  (∀ w : Nat, s.owners.count (w + 1) + s.queue.count (some (w + 1)) ≤ 1) ∧
  s.owners.count 0 = 0

theorem count_set_le (q : List (Option Nat)) (i : Nat) (x a : Option Nat)
    (hne : a ≠ x) : (q.set i x).count a ≤ q.count a := by
  induction q generalizing i with
  | nil => simp
  | cons b rest ih =>
    cases i with
    | zero =>
      simp only [List.set_cons_zero, List.count_cons, beq_iff_eq]
      rw [if_neg (fun h => hne h.symm)]
      omega
    | succ n =>
      simp only [List.set_cons_succ, List.count_cons, beq_iff_eq]
      have := ih n
      omega

theorem count_jsSetAt_le (q : List (Option Nat)) (i v : Nat) (a : Option Nat)
    (ha1 : a ≠ some v) (ha2 : a ≠ none) :
    (jsSetAt q i v).count a ≤ q.count a := by
  unfold jsSetAt
  by_cases h : i < q.length
  · rw [if_pos h]
    exact count_set_le q i (some v) a ha1
  · rw [if_neg h]
    simp [List.count_append, List.count_replicate, List.count_cons, beq_iff_eq,
      Ne.symm ha1, Ne.symm ha2]

theorem count_map_some (l : List Nat) (v : Nat) :
    (l.map some).count (some v) = l.count v := by
  induction l with
  | nil => rfl
  | cons a l ih => simp [List.count_cons, ih]

theorem slotExclusion_init (cores : Nat) : slotExclusion (initSlotState cores) := by
  constructor
  · intro w
    have h := List.nodup_iff_count_le_one.mp (List.nodup_range cores) (w + 1)
    have h2 := count_map_some (List.range cores) (w + 1)
    simp only [initSlotState, List.count_nil, Nat.zero_add, h2]
    exact h
  · simp [initSlotState]

theorem slotStep_preserves (s t : SlotProtocolState) (hstep : SlotStep s t)
    (hinv : slotExclusion s) : slotExclusion t := by
  obtain ⟨h1, h0⟩ := hinv
  cases hstep with
  | acquireDispatch w rest hq =>
    constructor
    · intro v
      have hv := h1 v
      rw [hq] at hv
      simp only [List.count_cons, beq_iff_eq] at hv ⊢
      by_cases hvw : v = w
      · subst hvw
        simp only [if_pos rfl] at hv ⊢
        omega
      · rw [if_neg (show ¬(some (w + 1) = some (v + 1)) by simp; omega)] at hv
        rw [if_neg (show ¬(w + 1 = v + 1) by omega)]
        omega
    · simp only [List.count_cons, beq_iff_eq, h0]
      rw [if_neg (show ¬(w + 1 = 0) by omega)]
  | acquireDrop x rest hq hx =>
    constructor
    · intro v
      have hv := h1 v
      rw [hq] at hv
      simp only [List.count_cons] at hv
      dsimp only
      omega
    · exact h0
  | signRelease i hi =>
    have hipos : 0 < s.owners.count i := List.count_pos_iff.mpr hi
    have hi0 : i ≠ 0 := by
      intro h
      rw [h, h0] at hipos
      omega
    constructor
    · intro v
      have hv := h1 v
      have herase : (s.owners.erase i).count (v + 1)
          = s.owners.count (v + 1) - if i = v + 1 then 1 else 0 := by
        simpa [beq_iff_eq] using List.count_erase (v + 1) i s.owners
      simp only [List.count_append, List.count_cons, List.count_nil, beq_iff_eq,
        herase, Nat.zero_add]
      by_cases hvi : i = v + 1
      · rw [if_pos hvi, if_pos (show some i = some (v + 1) by rw [hvi])]
        rw [hvi] at hipos
        omega
      · rw [if_neg hvi, if_neg (fun h => hvi (Option.some.inj h))]
        omega
    · have herase0 : (s.owners.erase i).count 0
          = s.owners.count 0 - if i = 0 then 1 else 0 := by
        simpa [beq_iff_eq] using List.count_erase 0 i s.owners
      rw [herase0, h0]
      simp
  | verifyRelease i hi =>
    have hipos : 0 < s.owners.count i := List.count_pos_iff.mpr hi
    have hi0 : i ≠ 0 := by
      intro h
      rw [h, h0] at hipos
      omega
    constructor
    · intro v
      have hv := h1 v
      have herase : (s.owners.erase i).count (v + 1)
          = s.owners.count (v + 1) - if i = v + 1 then 1 else 0 := by
        simpa [beq_iff_eq] using List.count_erase (v + 1) i s.owners
      have hqle : (jsSetAt s.queue i 0).count (some (v + 1))
          ≤ s.queue.count (some (v + 1)) :=
        count_jsSetAt_le s.queue i 0 (some (v + 1)) (by simp) (by simp)
      simp only [herase]
      by_cases hvi : i = v + 1
      · rw [if_pos hvi]
        rw [hvi] at hipos
        omega
      · rw [if_neg hvi]
        omega
    · have herase0 : (s.owners.erase i).count 0
          = s.owners.count 0 - if i = 0 then 1 else 0 := by
        simpa [beq_iff_eq] using List.count_erase 0 i s.owners
      rw [herase0, h0]
      simp

/-- C9: in every state reachable from module load under the acquire/release
discipline, each worker slot index is owned by at most one in-flight
operation — a slot's request/reply regions are touched by at most one
in-flight operation at a time, by construction of the availability queue
protocol and with no lock on the memory itself. -/
theorem slot_mutual_exclusion (cores : Nat) (s : SlotProtocolState)
    (hreach : Relation.ReflTransGen SlotStep (initSlotState cores) s) :
    ∀ i : Nat, s.owners.count i ≤ 1 := by
  have hinv : slotExclusion s := by
    induction hreach with
    | refl => exact slotExclusion_init cores
    | tail _ hstep ih => exact slotStep_preserves _ _ hstep ih
  intro i
  cases i with
  | zero =>
    rw [hinv.2]
    omega
  | succ w =>
    have := hinv.1 w
    omega

/-- Witness for C9: a two-core pool after discarding the falsy head 0 and
dispatching worker 1. -/
theorem slot_mutual_exclusion_witness :
    (SlotProtocolState.mk [] [1]).owners.count 1 ≤ 1 :=
  slot_mutual_exclusion 2 ⟨[], [1]⟩
    (Relation.ReflTransGen.tail
      (Relation.ReflTransGen.single
        (SlotStep.acquireDrop (initSlotState 2) (some 0) [some 1] rfl (Or.inr rfl)))
      (SlotStep.acquireDispatch ⟨[some 1], []⟩ 0 [] rfl))
    1
